import Mathlib

/-!
Verification of the Hephaestus lab-acquisition repository
(`network_analyzer_reader.py`, `pressure_pump_controller.py`) against its
natural-language specification.  Python floats are modelled as `ℚ`,
timestamps as `ℚ` (seconds) where only arithmetic matters and as a
broken-down `PyDateTime` where `strftime` formatting matters; fallible
Python code is modelled with `Option`/`Except`.
-/

/-- Python `str.lower()` restricted to the ASCII strings that appear here:
lowercase every character of the string. -/
def pyLower (s : String) : String :=
  ⟨s.data.map Char.toLower⟩

/-- Python `int()` applied to a real number: truncation toward zero.
For a rational `q = num/den` in lowest terms this is `num.tdiv den`. -/
def pyInt (q : ℚ) : ℤ :=
  q.num.tdiv q.den

/-- Truncation toward zero written the way the amended specification words
it: the floor for nonnegative arguments, the ceiling for negative ones. -/
def truncTowardZero (q : ℚ) : ℤ :=
  if 0 ≤ q then ⌊q⌋ else ⌈q⌉

lemma pyInt_eq_truncTowardZero (q : ℚ) : pyInt q = truncTowardZero q := by
  unfold pyInt truncTowardZero
  split
  · next h =>
    have hnum : 0 ≤ q.num := Rat.num_nonneg.mpr h
    have hden : (0 : ℤ) ≤ (q.den : ℤ) := Int.natCast_nonneg _
    rw [Int.tdiv_eq_ediv hnum hden, Rat.floor_def]
  · next h =>
    push_neg at h
    have hnum : q.num < 0 := Rat.num_neg.mpr h
    have hden : (0 : ℤ) ≤ (q.den : ℤ) := Int.natCast_nonneg _
    have hceil : ⌈q⌉ = -⌊-q⌋ := by
      rw [Int.floor_neg]
      ring
    have hfloor : ⌊-q⌋ = (-q.num) / (q.den : ℤ) := by
      rw [Rat.floor_def, Rat.neg_num, Rat.neg_den]
    have htd : (-q.num).tdiv (q.den : ℤ) = (-q.num) / (q.den : ℤ) :=
      Int.tdiv_eq_ediv (by omega) hden
    have : q.num.tdiv (q.den : ℤ) = -((-q.num).tdiv (q.den : ℤ)) := by
      rw [Int.neg_tdiv]
      ring
    rw [this, htd, hceil, hfloor]

/-! ## pressure_pump_controller.py : unit conversions -/

/-- Conversion constant `PA_PER_MBAR = 100.0`. -/
def PA_PER_MBAR : ℚ := 100

/-- Conversion constant `PA_PER_MMHG = 133.322`. -/
def PA_PER_MMHG : ℚ := 133322 / 1000

/-- Conversion constant `PA_PER_MMH2O = 9.80665`. -/
def PA_PER_MMH2O : ℚ := 980665 / 100000

/-- `FluigentPump._convert_to_mbar`: lowercase the unit, dispatch on it,
raise `ValueError` (here: `none`) on an unsupported unit. -/
def convert_to_mbar (value : ℚ) (unit : String) : Option ℚ :=
  let u := pyLower unit
  if u = "mbar" then some value
  else if u = "pa" then some (value / PA_PER_MBAR)
  else if u = "kpa" then some (value * 10)
  else if u = "mmhg" then some (value * PA_PER_MMHG / PA_PER_MBAR)
  else if u = "mmh2o" then some (value * PA_PER_MMH2O / PA_PER_MBAR)
  else none

/-- `FluigentPump._convert_from_mbar`: lowercase the unit, dispatch on it,
raise `ValueError` (here: `none`) on an unsupported unit. -/
def convert_from_mbar (mbar : ℚ) (unit : String) : Option ℚ :=
  let u := pyLower unit
  if u = "mbar" then some mbar
  else if u = "pa" then some (mbar * PA_PER_MBAR)
  else if u = "kpa" then some (mbar * (1 / 10))
  else if u = "mmhg" then some (mbar * PA_PER_MBAR / PA_PER_MMHG)
  else if u = "mmh2o" then some (mbar * PA_PER_MBAR / PA_PER_MMH2O)
  else none

/-- The five supported unit spellings after lowercasing. -/
def supported_units : List String := ["mbar", "pa", "kpa", "mmhg", "mmh2o"]

/-! ## network_analyzer_reader.py : raw record naming -/

/-- A broken-down timestamp as used by `datetime.strftime`. -/
structure PyDateTime where
  year : Nat
  month : Nat
  day : Nat
  hour : Nat
  minute : Nat
  second : Nat
deriving DecidableEq

/-- Zero-pad a number to two digits, as `%m`, `%d`, `%H`, `%M`, `%S` do. -/
def pad2 (n : Nat) : String :=
  if n < 10 then "0" ++ toString n else toString n

/-- Zero-pad a number to four digits, as `%Y` does. -/
def pad4 (n : Nat) : String :=
  if n < 10 then "000" ++ toString n
  else if n < 100 then "00" ++ toString n
  else if n < 1000 then "0" ++ toString n
  else toString n

/-- `timestamp.strftime of the pattern Ymd_HMS` used in `_generate_raw_path`. -/
def strftime_compact (t : PyDateTime) : String :=
  pad4 t.year ++ pad2 t.month ++ pad2 t.day ++ "_" ++
    pad2 t.hour ++ pad2 t.minute ++ pad2 t.second

/-- `NetworkAnalyzerReader._generate_raw_path`: the raw CSV file name
(the part after the data directory). -/
def generate_raw_path (t : PyDateTime) (freq_hz : ℚ) : String :=
  strftime_compact t ++ "_" ++ toString (pyInt freq_hz) ++ "Hz.csv"

/-- The raw record identifier as the specification words it: the frequency
component is the frequency rounded to the nearest integer. -/
def generate_raw_path_specced (t : PyDateTime) (freq_hz : ℚ) : String :=
  strftime_compact t ++ "_" ++ toString (round freq_hz) ++ "Hz.csv"

/-- Claim C10: for every supported pressure unit (case-insensitive) the
conversion to mbar followed by the conversion back is the identity over
exact rational arithmetic, and for any unit outside the supported set both
conversion functions raise `ValueError` (modelled as `none`). -/
theorem C10_unit_conversion_roundtrip (v : ℚ) (u : String) :
    (pyLower u ∈ supported_units →
      (convert_to_mbar v u).bind (fun m => convert_from_mbar m u) = some v)
    ∧ (pyLower u ∉ supported_units →
      convert_to_mbar v u = none ∧ convert_from_mbar v u = none) := by
  constructor
  · intro hmem
    simp only [supported_units, List.mem_cons, List.not_mem_nil, or_false] at hmem
    rcases hmem with h | h | h | h | h <;>
      simp [convert_to_mbar, convert_from_mbar, h, PA_PER_MBAR, PA_PER_MMHG,
        PA_PER_MMH2O]
  · intro hmem
    simp only [supported_units, List.mem_cons, List.not_mem_nil, or_false,
      not_or] at hmem
    obtain ⟨h1, h2, h3, h4, h5⟩ := hmem
    constructor <;> simp [convert_to_mbar, convert_from_mbar, h1, h2, h3, h4, h5]

/-- Witness for C10: round-trip through mbar at 7 mmHg (mixed case) returns
7, and the unsupported unit psi is rejected by both conversions. -/
theorem C10_unit_conversion_roundtrip_witness :
    ((convert_to_mbar 7 "mmHg").bind (fun m => convert_from_mbar m "mmHg") = some 7)
    ∧ (convert_to_mbar 7 "psi" = none ∧ convert_from_mbar 7 "psi" = none) :=
  ⟨(C10_unit_conversion_roundtrip 7 "mmHg").1 (by decide),
   (C10_unit_conversion_roundtrip 7 "psi").2 (by decide)⟩

/-- Counterexample for C2: at frequency 19/10 Hz the code's file name uses
the truncated frequency 1, not the nearest integer 2 demanded by the claim. -/
theorem C2_raw_path_counterexample :
    generate_raw_path ⟨2024, 1, 2, 3, 4, 5⟩ (19 / 10) ≠
      generate_raw_path_specced ⟨2024, 1, 2, 3, 4, 5⟩ (19 / 10) := by
  have h2 : round ((19 : ℚ) / 10) = 2 := by norm_num [round_eq]
  have hn : ((19 : ℚ) / 10).num = 19 := by norm_num
  have hd : ((19 : ℚ) / 10).den = 10 := by norm_num
  have h1 : pyInt (19 / 10) = 1 := by
    rw [pyInt, hn, hd]
    decide
  simp only [generate_raw_path, generate_raw_path_specced, h1, h2]
  decide

/-- Claim C2 (amended): for every timestamp and frequency, the raw record
identifier is the deterministic string whose frequency component is the
frequency truncated toward zero (Python `int`), not rounded to nearest. -/
theorem C2_raw_path_amended (t : PyDateTime) (f : ℚ) :
    generate_raw_path t f =
      strftime_compact t ++ "_" ++ toString (truncTowardZero f) ++ "Hz.csv" := by
  rw [generate_raw_path, pyInt_eq_truncTowardZero]

/-! ## network_analyzer_reader.py : sweeps and per-sweep processing -/

/-- One dequeued item `(timestamp, x_values, results)`: the timestamp in
seconds, the frequency axis, and the magnitudes. -/
structure Sweep where
  timestamp : ℚ
  x_values : List ℚ
  results : List ℚ
deriving DecidableEq

/-- Python `min` over a list of floats: keep the current value unless the
next element is strictly smaller; `ValueError` (here `none`) on `[]`. -/
def pyMin : List ℚ → Option ℚ
  | [] => none
  | x :: xs => some (xs.foldl (fun acc y => if y < acc then y else acc) x)

/-- Python `list.index`: index of the first element equal to the value
(the list length when the value is absent, which Python reports as
`ValueError`; all uses here look up a present value). -/
def pyIndex (v : ℚ) : List ℚ → Nat
  | [] => 0
  | x :: xs => if x = v then 0 else pyIndex v xs + 1

/-- Lines 126 to 128 of `process_loop`: `min_val = min(results)`,
`idx = results.index(min_val)`, `freq_at_min = x_values[idx]`, with any
raised `ValueError` or `IndexError` modelled as `none`.  Returns
`(freq_at_min, min_val)`. -/
def processSweep (s : Sweep) : Option (ℚ × ℚ) :=
  match pyMin s.results with
  | none => none
  | some m =>
    match s.x_values[pyIndex m s.results]? with
    | none => none
    | some f => some (f, m)

lemma foldl_min_le_init (l : List ℚ) :
    ∀ a : ℚ, l.foldl (fun acc y => if y < acc then y else acc) a ≤ a := by
  induction l with
  | nil => intro a; simp
  | cons x xs ih =>
    intro a
    simp only [List.foldl_cons]
    refine le_trans (ih _) ?_
    by_cases hxa : x < a
    · simp only [if_pos hxa]
      linarith
    · simp only [if_neg hxa]
      exact le_refl a

lemma foldl_min_le_mem (l : List ℚ) :
    ∀ a : ℚ, ∀ y ∈ l, l.foldl (fun acc y => if y < acc then y else acc) a ≤ y := by
  induction l with
  | nil => intro a y hy; simp at hy
  | cons x xs ih =>
    intro a y hy
    simp only [List.foldl_cons]
    rcases List.mem_cons.mp hy with rfl | hy
    · refine le_trans (foldl_min_le_init xs _) ?_
      split <;> [linarith; linarith [le_of_not_lt (by assumption)]]
    · exact ih _ y hy

lemma foldl_min_mem (l : List ℚ) :
    ∀ a : ℚ, l.foldl (fun acc y => if y < acc then y else acc) a = a ∨
      l.foldl (fun acc y => if y < acc then y else acc) a ∈ l := by
  induction l with
  | nil => intro a; simp
  | cons x xs ih =>
    intro a
    simp only [List.foldl_cons]
    rcases ih (if x < a then x else a) with h | h
    · rw [h]
      split at h <;> simp_all
    · right
      exact List.mem_cons_of_mem _ h

lemma pyMin_spec {l : List ℚ} {m : ℚ} (h : pyMin l = some m) :
    m ∈ l ∧ ∀ y ∈ l, m ≤ y := by
  match l with
  | [] => simp [pyMin] at h
  | x :: xs =>
    simp only [pyMin, Option.some.injEq] at h
    subst h
    constructor
    · rcases foldl_min_mem xs x with h | h
      · rw [h]; exact List.mem_cons_self _ _
      · exact List.mem_cons_of_mem _ h
    · intro y hy
      rcases List.mem_cons.mp hy with rfl | hy
      · exact foldl_min_le_init xs y
      · exact foldl_min_le_mem xs x y hy

lemma pyIndex_spec {l : List ℚ} {v : ℚ} (h : v ∈ l) :
    pyIndex v l < l.length ∧ l[pyIndex v l]? = some v ∧
      ∀ j < pyIndex v l, ∀ x, l[j]? = some x → x ≠ v := by
  induction l with
  | nil => simp at h
  | cons x xs ih =>
    by_cases hx : x = v
    · subst hx
      refine ⟨by simp [pyIndex], by simp [pyIndex], ?_⟩
      intro j hj
      simp [pyIndex] at hj
    · have hmem : v ∈ xs := by
        rcases List.mem_cons.mp h with rfl | hmem
        · exact absurd rfl hx
        · exact hmem
      obtain ⟨ih1, ih2, ih3⟩ := ih hmem
      have hpi : pyIndex v (x :: xs) = pyIndex v xs + 1 := by
        simp [pyIndex, hx]
      refine ⟨by simpa [hpi] using Nat.succ_lt_succ ih1, by simpa [hpi] using ih2, ?_⟩
      intro j hj y hy
      rw [hpi] at hj
      match j with
      | 0 =>
        simp only [List.getElem?_cons_zero, Option.some.injEq] at hy
        subst hy
        exact hx
      | j + 1 =>
        simp only [List.getElem?_cons_succ] at hy
        exact ih3 j (Nat.lt_of_succ_lt_succ hj) y hy

/-- Full characterization of the per-sweep processing under the Sweep
invariant: it succeeds and returns the pair at the first index attaining
the minimal magnitude. -/
lemma processSweep_spec (s : Sweep) (hne : s.results ≠ [])
    (hlen : s.x_values.length = s.results.length) :
    ∃ (i : ℕ) (f m : ℚ), processSweep s = some (f, m) ∧
      s.x_values[i]? = some f ∧ s.results[i]? = some m ∧
      (∀ (j : ℕ) (mj : ℚ), s.results[j]? = some mj → m ≤ mj) ∧
      (∀ (j : ℕ), j < i → ∀ (mj : ℚ), s.results[j]? = some mj → m < mj) := by
  obtain ⟨r, rs, hrs⟩ := List.exists_cons_of_ne_nil hne
  have hmin : ∃ m, pyMin s.results = some m := by
    rw [hrs]; exact ⟨_, rfl⟩
  obtain ⟨m, hm⟩ := hmin
  obtain ⟨hmem, hle⟩ := pyMin_spec hm
  obtain ⟨hilt, higet, hifirst⟩ := pyIndex_spec hmem
  set i := pyIndex m s.results with hi
  have hxlt : i < s.x_values.length := by rw [hlen]; exact hilt
  have hxget : ∃ f, s.x_values[i]? = some f := by
    rw [List.getElem?_eq_getElem hxlt]
    exact ⟨_, rfl⟩
  obtain ⟨f, hf⟩ := hxget
  refine ⟨i, f, m, ?_, hf, higet, ?_, ?_⟩
  · simp only [processSweep, hm]
    rw [← hi, hf]
  · intro j mj hj
    exact hle mj (List.getElem?_mem hj)
  · intro j hj mj hjget
    have hne' := hifirst j hj mj hjget
    have hle' := hle mj (List.getElem?_mem hjget)
    exact lt_of_le_of_ne hle' (Ne.symm hne')

/-- Claim C4: for every sweep with at least one sample, the computed pair
is `(frequencies[i], magnitudes[i])` where `magnitudes[i]` is minimal and
`i` is the lowest index attaining the minimum; in particular magnitudes
`[3, -5, -5, 2]` at frequencies `[1, 2, 3, 4]` give magnitude -5 at
frequency 2. -/
theorem C4_minimum_point :
    (∀ s : Sweep, s.results ≠ [] → s.x_values.length = s.results.length →
      ∃ (i : ℕ) (f m : ℚ), processSweep s = some (f, m) ∧
        s.x_values[i]? = some f ∧ s.results[i]? = some m ∧
        (∀ (j : ℕ) (mj : ℚ), s.results[j]? = some mj → m ≤ mj) ∧
        (∀ (j : ℕ), j < i → ∀ (mj : ℚ), s.results[j]? = some mj → m < mj))
    ∧ processSweep ⟨0, [1, 2, 3, 4], [3, -5, -5, 2]⟩ = some (2, -5) := by
  refine ⟨processSweep_spec, ?_⟩
  decide

/-- Witness for C4: the general part applied to the tie-break example from
the specification. -/
theorem C4_minimum_point_witness :
    ∃ (i : ℕ) (f m : ℚ),
      processSweep ⟨0, [1, 2, 3, 4], [3, -5, -5, 2]⟩ = some (f, m) ∧
      (Sweep.mk 0 [1, 2, 3, 4] [3, -5, -5, 2]).x_values[i]? = some f ∧
      (Sweep.mk 0 [1, 2, 3, 4] [3, -5, -5, 2]).results[i]? = some m ∧
      (∀ (j : ℕ) (mj : ℚ),
        (Sweep.mk 0 [1, 2, 3, 4] [3, -5, -5, 2]).results[j]? = some mj → m ≤ mj) ∧
      (∀ (j : ℕ), j < i → ∀ (mj : ℚ),
        (Sweep.mk 0 [1, 2, 3, 4] [3, -5, -5, 2]).results[j]? = some mj → m < mj) :=
  C4_minimum_point.1 ⟨0, [1, 2, 3, 4], [3, -5, -5, 2]⟩ (by decide) (by decide)

/-- Claim C9: under the Sweep invariant (equal lengths, at least one
sample) the per-sweep processing of `process_loop` is safe: no
empty-sequence error and no out-of-range access, i.e. it returns a value. -/
theorem C9_processing_safety (s : Sweep) (hne : s.results ≠ [])
    (hlen : s.x_values.length = s.results.length) :
    (processSweep s).isSome = true := by
  obtain ⟨i, f, m, hps, _⟩ := processSweep_spec s hne hlen
  simp [hps]

/-- Witness for C9: a two-sample sweep satisfying the invariant is
processed without error. -/
theorem C9_processing_safety_witness :
    (processSweep ⟨0, [1, 2], [5, -1]⟩).isSome = true :=
  C9_processing_safety ⟨0, [1, 2], [5, -1]⟩ (by decide) (by decide)

/-! ## network_analyzer_reader.py : summary ledger -/

/-- The mutable baseline and counter fields of `NetworkAnalyzerReader`
used by `_append_summary`. -/
structure LedgerState where
  read_count : Nat
  baseline_time : Option ℚ
  baseline_freq : Option ℚ
deriving DecidableEq

/-- The values of one row appended to `summary.csv` (before 2-decimal
formatting). -/
structure SummaryRow where
  timestamp : ℚ
  read_count : Nat
  min_db : ℚ
  frequency_hz : ℚ
  time_delta_s : ℚ
  frequency_shift_hz : ℚ
deriving DecidableEq

/-- The field state right after `__init__`. -/
def initLedger : LedgerState := ⟨0, none, none⟩

/-- Python `x or y` for `x : Optional[float]`: `None` and `0.0` are falsy
and fall through to `y`. -/
def pyOrFloat : Option ℚ → ℚ → ℚ
  | none, d => d
  | some b, d => if b = 0 then d else b

/-- `NetworkAnalyzerReader._append_summary`: bump the counter, establish
the baseline on the first call, compute delta and shift on later calls.
A later call that somehow finds no baseline time would raise `TypeError`
(modelled as `none`; unreachable from `initLedger`). -/
def append_summary (st : LedgerState) (timestamp freq_hz mag_db : ℚ) :
    Option (LedgerState × SummaryRow) :=
  let rc := st.read_count + 1
  if rc = 1 then
    some (⟨rc, some timestamp, some freq_hz⟩,
      ⟨timestamp, rc, mag_db, freq_hz, 0, 0⟩)
  else
    match st.baseline_time with
    | none => none
    | some bt =>
      some ({ st with read_count := rc },
        ⟨timestamp, rc, mag_db, freq_hz, timestamp - bt,
          freq_hz - pyOrFloat st.baseline_freq freq_hz⟩)

/-- Run `_append_summary` over a list of `(timestamp, freq_hz, mag_db)`
calls, collecting the appended rows. -/
def runAppends : LedgerState → List (ℚ × ℚ × ℚ) →
    Option (LedgerState × List SummaryRow)
  | st, [] => some (st, [])
  | st, (t, f, m) :: rest =>
    match append_summary st t f m with
    | none => none
    | some (st2, row) =>
      match runAppends st2 rest with
      | none => none
      | some (st3, rows) => some (st3, row :: rows)

/-- Claim C1, evaluated at the failing input: after a first sweep whose
minimum sits at 0 Hz, the second record's frequency shift is 0, although
the claim requires `frequency_hz - baseline.frequency = 5 - 0 = 5`; the
Python expression `self.baseline_freq or freq_hz` treats the stored 0.0
baseline as falsy and falls back to the current frequency. -/
theorem C1_append_summary_zero_baseline :
    (runAppends initLedger [(0, 0, -1), (10, 5, -2)]).map
        (fun p => p.2.map (fun r => r.frequency_shift_hz)) = some [0, 0]
    ∧ (5 : ℚ) - 0 = 5 ∧ (5 : ℚ) ≠ 0 := by
  refine ⟨?_, by norm_num, by norm_num⟩
  norm_num [runAppends, append_summary, initLedger, pyOrFloat]

/-! ## network_analyzer_reader.py : process_loop, read_loop, run -/

/-- Outcome of the processing thread consuming a queue after the stop flag
is set: `ledger` is the final field state, `raws` the sweeps whose raw CSV
was written, `rows` the appended summary rows, `crash` the uncaught
exception that killed the thread, if any.  `process_loop` catches only
`queue.Empty` (line 123), so any error from the persistence steps
propagates and terminates the loop. -/
structure DrainResult where
  ledger : LedgerState
  raws : List Sweep
  rows : List SummaryRow
  crash : Option String
deriving DecidableEq

/-- The body of `process_loop` (lines 120 to 137) iterated over the queued
sweeps with the stop flag set, parametrized by the outcome of the two
persistence effects: `wRaw` for `_write_raw_csv` and `wSum` for the file
append inside `_append_summary`. -/
def process_drain (wRaw : Sweep → Except String Unit)
    (wSum : SummaryRow → Except String Unit) :
    LedgerState → List Sweep → DrainResult
  | st, [] => ⟨st, [], [], none⟩
  | st, s :: rest =>
    match processSweep s with
    | none => ⟨st, [], [], some "ValueError"⟩
    | some (f, m) =>
      match wRaw s with
      | .error e => ⟨st, [], [], some e⟩
      | .ok _ =>
        match append_summary st s.timestamp f m with
        | none =>
          ⟨⟨st.read_count + 1, st.baseline_time, st.baseline_freq⟩, [s], [],
            some "TypeError"⟩
        | some (st2, row) =>
          match wSum row with
          | .error e => ⟨st2, [s], [], some e⟩
          | .ok _ =>
            let r := process_drain wRaw wSum st2 rest
            ⟨r.ledger, s :: r.raws, row :: r.rows, r.crash⟩

/-- A raw-CSV writer that always succeeds. -/
def wRawOk : Sweep → Except String Unit := fun _ => .ok ()

/-- A summary-append writer that always succeeds. -/
def wSumOk : SummaryRow → Except String Unit := fun _ => .ok ()

/-- A raw-CSV writer that fails on the sweep with timestamp 0 and succeeds
on every other sweep. -/
def wRawFailFirst : Sweep → Except String Unit :=
  fun s => if s.timestamp = 0 then .error "disk full" else .ok ()

/-- A summary-append writer that always fails. -/
def wSumFailAll : SummaryRow → Except String Unit := fun _ => .error "summary disk"

/-- Concrete sweep at t = 0: one sample of magnitude 2 at 1 Hz. -/
def sweepK : Sweep := ⟨0, [1], [2]⟩

/-- Concrete sweep at t = 10: one sample of magnitude 4 at 3 Hz. -/
def sweepL : Sweep := ⟨10, [3], [4]⟩

/-- Counterexample for C3: with a queue holding `sweepK` then `sweepL` and
raw persistence failing on `sweepK`, the loop dies with the error and
`sweepL` (which is perfectly processable) is never dequeued: no raw record
and no summary row is produced for it, contradicting the claim that
subsequent sweeps are still processed. -/
theorem C3_persistence_error_counterexample :
    process_drain wRawFailFirst wSumOk initLedger [sweepK, sweepL] =
      ⟨initLedger, [], [], some "disk full"⟩
    ∧ processSweep sweepL ≠ none := by
  constructor
  · norm_num [process_drain, processSweep, pyMin, pyIndex, wRawFailFirst,
      wSumOk, initLedger, sweepK, sweepL]
  · simp [processSweep, pyMin, pyIndex, sweepL]

/-- Claim C3 (amended): an error raised while persisting the raw sweep
record, or while appending the summary record, is NOT caught by
`process_loop` (only `queue.Empty` is): the exception propagates, the loop
terminates at that sweep, and no subsequent sweep is dequeued or
processed.  First conjunct: a raw-write failure kills the loop before
anything of the sweep is recorded.  Second conjunct: a summary-append
failure kills the loop after the raw record was written and the in-memory
ledger state mutated, with no row appended. -/
theorem C3_persistence_error_terminates_loop
    (wRaw : Sweep → Except String Unit) (wSum : SummaryRow → Except String Unit)
    (st : LedgerState) (s : Sweep) (rest : List Sweep) (e : String) (f m : ℚ)
    (hps : processSweep s = some (f, m)) :
    (wRaw s = .error e →
      process_drain wRaw wSum st (s :: rest) = ⟨st, [], [], some e⟩)
    ∧ (∀ (st2 : LedgerState) (row : SummaryRow), wRaw s = .ok () →
        append_summary st s.timestamp f m = some (st2, row) →
        wSum row = .error e →
        process_drain wRaw wSum st (s :: rest) = ⟨st2, [s], [], some e⟩) := by
  constructor
  · intro hw
    simp [process_drain, hps, hw]
  · intro st2 row hw ha hs
    simp [process_drain, hps, hw, ha, hs]

/-- Witness for C3 (amended): on a concrete two-sweep queue, a failing raw
write terminates the loop before anything is recorded, and a failing
summary append terminates the loop right after the raw record of the first
sweep; in both runs the second sweep is never processed. -/
theorem C3_persistence_error_terminates_loop_witness :
    process_drain wRawFailFirst wSumOk initLedger [sweepK, sweepL] =
      ⟨initLedger, [], [], some "disk full"⟩
    ∧ process_drain wRawOk wSumFailAll initLedger [sweepK, sweepL] =
      ⟨⟨1, some 0, some 1⟩, [sweepK], [], some "summary disk"⟩ :=
  ⟨(C3_persistence_error_terminates_loop wRawFailFirst wSumOk initLedger sweepK
      [sweepL] "disk full" 1 2
      (by norm_num [processSweep, pyMin, pyIndex, sweepK])).1
      (by norm_num [wRawFailFirst, sweepK]),
   (C3_persistence_error_terminates_loop wRawOk wSumFailAll initLedger sweepK
      [sweepL] "summary disk" 1 2
      (by norm_num [processSweep, pyMin, pyIndex, sweepK])).2
      ⟨1, some 0, some 1⟩ ⟨0, 1, 2, 1, 0, 0⟩ rfl
      (by norm_num [append_summary, initLedger, sweepK]) rfl⟩

/-- What `run` (lines 149 to 158) does once the stop flag is set: it blocks
in `data_queue.join()`, which returns only after every enqueued sweep has
been matched by the `task_done()` at the end of its processing iteration
(line 137), and only then closes the VISA session and resource manager.
If the processing thread died on an uncaught exception, `task_done` is
never called for that sweep, `join` blocks forever and `run` never
returns, modelled as `none`. -/
structure ShutdownReport where
  raws : List Sweep
  rows : List SummaryRow
  sessionClosed : Bool
deriving DecidableEq

/-- The shutdown path of `run`: drain the queue, then close the session. -/
def run_shutdown (wRaw : Sweep → Except String Unit)
    (wSum : SummaryRow → Except String Unit)
    (st : LedgerState) (pending : List Sweep) : Option ShutdownReport :=
  match process_drain wRaw wSum st pending with
  | ⟨_, raws, rows, none⟩ => some ⟨raws, rows, true⟩
  | ⟨_, _, _, some _⟩ => none

lemma drain_no_crash (wRaw : Sweep → Except String Unit)
    (wSum : SummaryRow → Except String Unit) :
    ∀ (st : LedgerState) (q : List Sweep),
      (process_drain wRaw wSum st q).crash = none →
      (process_drain wRaw wSum st q).raws = q ∧
        (process_drain wRaw wSum st q).rows.length = q.length := by
  intro st q
  induction q generalizing st with
  | nil => intro _; simp [process_drain]
  | cons s rest ih =>
    intro h
    cases hps : processSweep s with
    | none => simp [process_drain, hps] at h
    | some fm =>
      obtain ⟨f, m⟩ := fm
      cases hw : wRaw s with
      | error e => simp [process_drain, hps, hw] at h
      | ok u =>
        cases ha : append_summary st s.timestamp f m with
        | none => simp [process_drain, hps, hw, ha] at h
        | some p =>
          obtain ⟨st2, row⟩ := p
          cases hs : wSum row with
          | error e => simp [process_drain, hps, hw, ha, hs] at h
          | ok u2 =>
            have h2 : (process_drain wRaw wSum st2 rest).crash = none := by
              simpa [process_drain, hps, hw, ha, hs] using h
            obtain ⟨ih1, ih2⟩ := ih st2 h2
            simp [process_drain, hps, hw, ha, hs, ih1, ih2]

/-- Claim C5: whenever the orchestrator finishes shutdown (releases the
session and returns), every sweep that was enqueued before the stop signal
has been fully processed: its raw record written, one summary row appended
per sweep, in queue order, and the session is closed only then. -/
theorem C5_shutdown_drains_all (wRaw : Sweep → Except String Unit)
    (wSum : SummaryRow → Except String Unit) (st : LedgerState)
    (pending : List Sweep) (rep : ShutdownReport)
    (h : run_shutdown wRaw wSum st pending = some rep) :
    rep.sessionClosed = true ∧ rep.raws = pending ∧
      rep.rows.length = pending.length := by
  rw [run_shutdown] at h
  cases hd : process_drain wRaw wSum st pending with
  | mk led raws rows crash =>
    rw [hd] at h
    cases crash with
    | some e => simp at h
    | none =>
      simp only [Option.some.injEq] at h
      obtain ⟨h1, h2⟩ := drain_no_crash wRaw wSum st pending (by rw [hd])
      rw [hd] at h1 h2
      subst h
      exact ⟨rfl, h1, h2⟩

/-- Witness for C5: a single fully successful sweep is drained and the
session closed. -/
theorem C5_shutdown_drains_all_witness :
    (ShutdownReport.mk [sweepK] [⟨0, 1, 2, 1, 0, 0⟩] true).sessionClosed = true ∧
      (ShutdownReport.mk [sweepK] [⟨0, 1, 2, 1, 0, 0⟩] true).raws = [sweepK] ∧
      (ShutdownReport.mk [sweepK] [⟨0, 1, 2, 1, 0, 0⟩] true).rows.length =
        [sweepK].length :=
  C5_shutdown_drains_all wRawOk wSumOk initLedger [sweepK] _
    (by norm_num [run_shutdown, process_drain, processSweep, pyMin, pyIndex,
      wRawOk, wSumOk, initLedger, sweepK, append_summary])

/-- Outcome of one iteration of the `process_loop` while-loop: the loop
either exits (guard on line 120 false), continues with an updated queue and
ledger (a processed sweep, or a caught `queue.Empty` timeout), or dies on
an uncaught exception. -/
inductive StepRes where
  | exited : StepRes
  | continued : List Sweep → LedgerState → List SummaryRow → StepRes
  | crashed : String → StepRes
deriving DecidableEq

/-- One iteration of `process_loop` (lines 120 to 137): test the guard
`not (stop_event.is_set() and data_queue.empty())`; on an empty queue the
1-second `get` times out, `queue.Empty` is caught and the loop continues;
otherwise the head sweep is processed. -/
def process_step (wRaw : Sweep → Except String Unit)
    (wSum : SummaryRow → Except String Unit)
    (stop : Bool) (q : List Sweep) (st : LedgerState) : StepRes :=
  if stop && q.isEmpty then .exited
  else
    match q with
    | [] => .continued [] st []
    | s :: rest =>
      match processSweep s with
      | none => .crashed "ValueError"
      | some (f, m) =>
        match wRaw s with
        | .error e => .crashed e
        | .ok _ =>
          match append_summary st s.timestamp f m with
          | none => .crashed "TypeError"
          | some (st2, row) =>
            match wSum row with
            | .error e => .crashed e
            | .ok _ => .continued rest st2 [row]

/-- Counterexample for C6: the claim says the loop terminates only when
the stop flag is set and the queue is empty, and never exits while the
queue still holds items; but an uncaught persistence error terminates the
processing loop (the thread dies) with the stop flag unset and a second
sweep still queued. -/
theorem C6_loop_exit_counterexample :
    process_step wRawFailFirst wSumOk false [sweepK, sweepL] initLedger =
      StepRes.crashed "disk full"
    ∧ ¬(false = true ∧ ([sweepK, sweepL] : List Sweep) = []) := by
  constructor
  · norm_num [process_step, processSweep, pyMin, pyIndex, wRawFailFirst, sweepK]
  · simp

/-- Claim C6 (amended): an iteration of the Recorder loop exits via the
loop guard if and only if the stop flag is set AND the queue is empty; and
with the stop flag unset an empty queue only makes the iteration continue
(the dequeue timeout is caught), never exit.  An uncaught processing
exception can still terminate the loop abnormally, even with items
queued. -/
theorem C6_loop_exit_iff (wRaw : Sweep → Except String Unit)
    (wSum : SummaryRow → Except String Unit)
    (stop : Bool) (q : List Sweep) (st : LedgerState) :
    (process_step wRaw wSum stop q st = StepRes.exited ↔
      (stop = true ∧ q = []))
    ∧ (stop = false → q = [] →
      process_step wRaw wSum stop q st = StepRes.continued [] st []) := by
  constructor
  · rw [process_step.eq_def]
    split
    · next hguard =>
      simp only [Bool.and_eq_true, List.isEmpty_iff] at hguard
      simp [hguard.1, hguard.2]
    · next hguard =>
      have hne : ¬(stop = true ∧ q = []) := by
        rintro ⟨h1, h2⟩
        subst h1
        subst h2
        simp at hguard
      cases q with
      | nil =>
        have hstop : stop = false := by simpa using hguard
        simp [hstop]
      | cons s rest =>
        cases hps : processSweep s with
        | none => simp [hps, hne]
        | some fm =>
          obtain ⟨f, m⟩ := fm
          cases hw : wRaw s with
          | error e => simp [hps, hw, hne]
          | ok u =>
            cases ha : append_summary st s.timestamp f m with
            | none => simp [hps, hw, ha, hne]
            | some p =>
              obtain ⟨st2, row⟩ := p
              cases hs : wSum row with
              | error e => simp [hps, hw, ha, hs, hne]
              | ok u2 => simp [hps, hw, ha, hs, hne]
  · rintro rfl rfl
    simp [process_step]

/-- Witness for C6 (amended): with the stop flag unset and the queue
empty, the iteration continues rather than exiting. -/
theorem C6_loop_exit_iff_witness :
    process_step wRawOk wSumOk false [] initLedger =
      StepRes.continued [] initLedger [] :=
  (C6_loop_exit_iff wRawOk wSumOk false [] initLedger).2 rfl rfl

/-! ## network_analyzer_reader.py : read_loop -/

/-- One iteration of `read_loop` (lines 106 to 114): on a successful poll
the sweep is enqueued; on any raised error the `except` block logs it and
nothing is enqueued; either way the loop survives and proceeds to the
interruptible wait. -/
def read_iteration (q : List Sweep) (poll : Except String Sweep) : List Sweep :=
  match poll with
  | .ok s => q ++ [s]
  | .error _ => q

/-- The queue contents produced by `read_loop` over a finite sequence of
poll outcomes (the polls that happen before the stop flag interrupts the
wait), starting from queue contents `q`. -/
def read_loop (q : List Sweep) (polls : List (Except String Sweep)) : List Sweep :=
  polls.foldl read_iteration q

lemma read_loop_filterMap (polls : List (Except String Sweep)) :
    ∀ q : List Sweep, read_loop q polls = q ++ polls.filterMap Except.toOption := by
  induction polls with
  | nil => intro q; simp [read_loop]
  | cons p ps ih =>
    intro q
    cases p with
    | ok s =>
      simp only [read_loop, List.foldl_cons] at *
      rw [read_iteration, ih (q ++ [s])]
      simp [Except.toOption]
    | error e =>
      simp only [read_loop, List.foldl_cons] at *
      rw [read_iteration, ih q]
      simp [Except.toOption]

/-- Claim C7: an Acquirer iteration whose trigger or read raises enqueues
nothing and leaves the loop alive; a successful iteration appends exactly
its sweep; over any poll sequence the queue receives exactly the
successful sweeps in order. -/
theorem C7_acquirer_fault_isolation (q : List Sweep)
    (polls : List (Except String Sweep)) (e : String) (s : Sweep) :
    read_loop q (Except.error e :: polls) = read_loop q polls ∧
      read_loop q (Except.ok s :: polls) = read_loop (q ++ [s]) polls ∧
      read_loop q polls = q ++ polls.filterMap Except.toOption := by
  refine ⟨?_, ?_, read_loop_filterMap polls q⟩
  · simp [read_loop, read_iteration]
  · simp [read_loop, read_iteration]

/-! ## network_analyzer_reader.py : summary file setup -/

/-- The header row written by `_setup_data_dir_and_summary`. -/
def summary_header : List String :=
  ["Timestamp", "ReadCount", "Min_dB", "Frequency_Hz", "TimeDelta_s",
    "FrequencyShift_Hz"]

/-- `NetworkAnalyzerReader._setup_data_dir_and_summary` acting on the
summary file, modelled as `none` (file absent) or `some rows`: when the
file exists nothing is touched; when it is absent it is created holding
exactly the header row. -/
def setup_summary : Option (List (List String)) → Option (List (List String))
  | some content => some content
  | none => some [summary_header]

lemma setup_summary_idem (fs : Option (List (List String))) :
    setup_summary (setup_summary fs) = setup_summary fs := by
  cases fs <;> rfl

/-- Claim C8: ledger initialization writes the header only when the file
does not exist, an existing store is left entirely unchanged, and running
initialization any number of times equals running it once, so the header
is never duplicated. -/
theorem C8_setup_idempotent (fs : Option (List (List String)))
    (c : List (List String)) (n : ℕ) :
    setup_summary none = some [summary_header] ∧
      setup_summary (some c) = some c ∧
      setup_summary^[n + 1] fs = setup_summary fs := by
  refine ⟨rfl, rfl, ?_⟩
  induction n with
  | zero => simp
  | succ k ih =>
    rw [Function.iterate_succ_apply', ih, setup_summary_idem]
